import Mathlib

/-
Verification development for the newstoday repository (src/app).

The component under study is NewsChain.fetch_news_headlines in src/app/main.py:
it fetches a page, parses it with BeautifulSoup, runs a fixed ordered list of
CSS selectors, and collects (text, absolute_link) pairs, raising when nothing
was collected.  The polling loop NewsChain.fetch_live_news in src/app/chains.py
is modelled as a transition system.

External libraries are embedded as follows:
- requests.get is an environment input (an Except value: the response body
  parsed into a soup, or the exception message);
- BeautifulSoup is abstracted as a Soup value: a map from selector strings to
  the list of matched tags in document order, each tag carrying its descendant
  text nodes and its optional href attribute;
- requests.compat.urljoin (= urllib.parse.urljoin) is ported verbatim below
  from CPython's Lib/urllib/parse.py (3.11), restricted to str inputs, in two
  layers: the total component-splitting functions (urlsplitL, urljoinL), and
  the Except-valued layer (urlsplitE, urljoinE) that additionally models the
  ValueError urlsplit raises for malformed bracketed netlocs, which a page
  anchor's href can reach and which propagates out of fetch_news_headlines.
-/

set_option maxRecDepth 4096

namespace App

/-- Python str.strip() whitespace test, restricted to the ASCII whitespace
characters (space, tab, newline, carriage return, vertical tab, form feed). -/
def isPyWs (c : Char) : Bool :=
  c == ' ' || c == '\t' || c == '\n' || c == '\r' || c.toNat == 11 || c.toNat == 12

/-- Drop leading Python whitespace (the lstrip half of str.strip()). -/
def pyStripL (l : List Char) : List Char := l.dropWhile isPyWs

/-- Drop trailing Python whitespace (the rstrip half of str.strip()). -/
def pyStripR (l : List Char) : List Char := (l.reverse.dropWhile isPyWs).reverse

/-- Python str.strip() on a character list. -/
def pyStrip (l : List Char) : List Char := pyStripR (pyStripL l)

/-- Python str.strip() on strings. -/
def pyStripStr (s : String) : String := String.mk (pyStrip s.data)

/- ---------------------------------------------------------------------
urllib.parse port (CPython 3.11 Lib/urllib/parse.py), str case only.
The component splitting is the total function urlsplitL; the ValueError
urlsplit can raise on malformed bracketed netlocs (mismatched brackets,
invalid bracketed hosts) is modelled on top of it by urlsplitE, whose
validation ports _check_bracketed_host together with the host validators of
Lib/ipaddress.py it calls.  Omitted relative to the original: the lru_cache
(semantically inert), and the NFKC-normalization branch of _checknetloc,
which returns immediately for every ASCII netloc and can raise only for
non-ASCII netlocs whose normalization introduces a delimiter; ASCII netlocs
are therefore modelled exactly.
--------------------------------------------------------------------- -/

/-- Characters stripped from the left of a URL by urlsplit
(_WHATWG_C0_CONTROL_OR_SPACE: C0 controls and space). -/
def isC0OrSpace (c : Char) : Bool := c.toNat ≤ 32

/-- Keep a URL character: it is none of tab, CR, LF
(_UNSAFE_URL_BYTES_TO_REMOVE). -/
def keepUrlByte (c : Char) : Bool := !(c == '\t' || c == '\r' || c == '\n')

/-- urlsplit removes tab, CR and LF anywhere in the URL. -/
def removeUnsafeBytes (l : List Char) : List Char := l.filter keepUrlByte

/-- url.lstrip(_WHATWG_C0_CONTROL_OR_SPACE). -/
def lstripC0 (l : List Char) : List Char := l.dropWhile isC0OrSpace

/-- scheme.strip(_WHATWG_C0_CONTROL_OR_SPACE), both ends. -/
def stripC0 (l : List Char) : List Char :=
  ((l.dropWhile isC0OrSpace).reverse.dropWhile isC0OrSpace).reverse

/-- The cleaning urlsplit applies to its url argument. -/
def cleanUrl (l : List Char) : List Char := removeUnsafeBytes (lstripC0 l)

/-- The cleaning urlsplit applies to its default-scheme argument. -/
def cleanScheme (l : List Char) : List Char := removeUnsafeBytes (stripC0 l)

/-- ASCII letter (url[0].isascii() and url[0].isalpha()). -/
def isAsciiAlpha (c : Char) : Bool :=
  ('a' ≤ c && c ≤ 'z') || ('A' ≤ c && c ≤ 'Z')

/-- Membership in urllib's scheme_chars. -/
def isSchemeChar (c : Char) : Bool :=
  isAsciiAlpha c || ('0' ≤ c && c ≤ '9') || c == '+' || c == '-' || c == '.'

/-- str.lower() on a scheme character; schemes are restricted to ASCII
scheme_chars, so ASCII lowercasing is exact. -/
def lowerAscii (c : Char) : Char :=
  if 'A' ≤ c && c ≤ 'Z' then Char.ofNat (c.toNat + 32) else c

/-- Split a list at the first occurrence of c (s.split(c, 1) when c occurs). -/
def splitOnFirst (c : Char) : List Char → Option (List Char × List Char)
  | [] => none
  | a :: rest =>
    if a = c then some ([], rest)
    else
      match splitOnFirst c rest with
      | some (p, r) => some (a :: p, r)
      | none => none

/-- urlsplit's scheme detection: the text before the first ':' must be
non-empty, start with an ASCII letter, and consist of scheme_chars; the
detected scheme is lowercased. -/
def detectScheme (u : List Char) : Option (List Char × List Char) :=
  match splitOnFirst ':' u with
  | some (p :: pre, rest) =>
    if isAsciiAlpha p && (p :: pre).all isSchemeChar then
      some ((p :: pre).map lowerAscii, rest)
    else none
  | _ => none

/-- Result of urlsplit: scheme, netloc, path, query, fragment.  Components
absent from the URL are the empty list, exactly as in Python. -/
structure SplitUrl where
  scheme : List Char
  netloc : List Char
  path : List Char
  query : List Char
  fragment : List Char
deriving DecidableEq

/-- _splitnetloc: the netloc runs up to the first of '/', '?' or '#'. -/
def splitNetloc (u : List Char) : List Char × List Char :=
  (u.takeWhile (fun c => !(c == '/' || c == '?' || c == '#')),
   u.dropWhile (fun c => !(c == '/' || c == '?' || c == '#')))

/-- The tail of urlsplit after scheme handling: netloc after a leading "//",
then fragment at the first '#', then query at the first '?'. -/
def splitRest (scheme u : List Char) : SplitUrl :=
  let nu := match u with
    | '/' :: '/' :: rest => splitNetloc rest
    | _ => ([], u)
  let uf := match splitOnFirst '#' nu.2 with
    | some (a, b) => (a, b)
    | none => (nu.2, [])
  let pq := match splitOnFirst '?' uf.1 with
    | some (a, b) => (a, b)
    | none => (uf.1, [])
  ⟨scheme, nu.1, pq.1, pq.2, uf.2⟩

/-- urllib.parse.urlsplit(url, dscheme, allow_fragments=True). -/
def urlsplitL (url dscheme : List Char) : SplitUrl :=
  match detectScheme (cleanUrl url) with
  | some (s, rest) => splitRest s rest
  | none => splitRest (cleanScheme dscheme) (cleanUrl url)

/-- urllib.parse.uses_relative. -/
def uses_relative : List String :=
  ["", "ftp", "http", "gopher", "nntp", "imap", "wais", "file", "https",
   "shttp", "mms", "prospero", "rtsp", "rtsps", "rtspu", "sftp", "svn",
   "svn+ssh", "ws", "wss"]

/-- urllib.parse.uses_netloc. -/
def uses_netloc : List String :=
  ["", "ftp", "http", "gopher", "nntp", "telnet", "imap", "wais", "file",
   "mms", "https", "shttp", "snews", "prospero", "rtsp", "rtsps", "rtspu",
   "rsync", "svn", "svn+ssh", "sftp", "nfs", "git", "git+ssh", "ws", "wss"]

/-- urllib.parse.uses_params. -/
def uses_params : List String :=
  ["", "ftp", "hdl", "prospero", "http", "imap", "https", "shttp", "rtsp",
   "rtsps", "rtspu", "sip", "sips", "mms", "sftp", "tel"]

/-- Result of urlparse: urlsplit plus the params component. -/
structure ParseUrl where
  scheme : List Char
  netloc : List Char
  path : List Char
  params : List Char
  query : List Char
  fragment : List Char
deriving DecidableEq

/-- Index of the last occurrence of c (str.rfind); only used under a guard
that c occurs, as in the original. -/
def rfindIdx (c : Char) (l : List Char) : Nat :=
  l.length - 1 - l.reverse.findIdx (fun a => a == c)

/-- str.find(c, start): first occurrence of c at or after position start. -/
def findIdxFrom (c : Char) (l : List Char) (start : Nat) : Option Nat :=
  match (l.drop start).findIdx? (fun a => a == c) with
  | some i => some (start + i)
  | none => none

/-- urllib.parse._splitparams.  The original is only called when ';' occurs
in the path, so the fallback branches returning the path unchanged mirror
the i < 0 early return. -/
def splitparamsL (p : List Char) : List Char × List Char :=
  if p.contains '/' then
    match findIdxFrom ';' p (rfindIdx '/' p) with
    | some i => (p.take i, p.drop (i + 1))
    | none => (p, [])
  else
    match p.findIdx? (fun a => a == ';') with
    | some i => (p.take i, p.drop (i + 1))
    | none => (p, [])

/-- urllib.parse.urlparse(url, dscheme, allow_fragments=True). -/
def urlparseL (url dscheme : List Char) : ParseUrl :=
  let s := urlsplitL url dscheme
  if String.mk s.scheme ∈ uses_params ∧ s.path.contains ';' then
    let pp := splitparamsL s.path
    ⟨s.scheme, s.netloc, pp.1, pp.2, s.query, s.fragment⟩
  else ⟨s.scheme, s.netloc, s.path, [], s.query, s.fragment⟩

/- The netloc validation urlsplit performs (the error path of urlsplit):
mismatched brackets raise ValueError('Invalid IPv6 URL'); a bracketed host
is validated by _check_bracketed_host, which accepts IPvFuture literals and
IPv6 addresses (via ipaddress.ip_address) and rejects everything else,
including bracketed IPv4 addresses.  The host validators below are ported
from Lib/ipaddress.py as validity tests (the parsed integer values are
never used, and ip_address reports one uniform message however its two
constructors fail, so booleans suffice). -/

/-- ASCII decimal digit (octet_str.isascii() and octet_str.isdigit()). -/
def isAsciiDigit (c : Char) : Bool := '0' ≤ c && c ≤ '9'

/-- Membership in ipaddress._HEX_DIGITS. -/
def isHexDigitPy (c : Char) : Bool :=
  isAsciiDigit c || ('a' ≤ c && c ≤ 'f') || ('A' ≤ c && c ≤ 'F')

/-- Decimal value of a digit string (int(octet_str, 10), digits checked
separately). -/
def octetValue (l : List Char) : Nat :=
  l.foldl (fun a c => a * 10 + (c.toNat - '0'.toNat)) 0

/-- IPv4Address._parse_octet as a validity test: non-empty, ASCII digits,
at most 3 characters, no leading zero except for "0" itself, value at most
255. -/
def validOctet (l : List Char) : Bool :=
  if l = [] then false
  else if ¬ l.all isAsciiDigit then false
  else if 3 < l.length then false
  else if l ≠ ['0'] ∧ l.head? = some '0' then false
  else decide (octetValue l ≤ 255)

/-- IPv4Address string validity: no '/', non-empty, exactly 4 octets
separated by '.', each a valid octet. -/
def validIPv4 (s : List Char) : Bool :=
  if '/' ∈ s then false
  else if s = [] then false
  else
    let octets := s.splitOn '.'
    if octets.length ≠ 4 then false else octets.all validOctet

/-- IPv6Address._parse_hextet as a validity test: hex digits only, at most
4 characters, non-empty (int('', 16) raises). -/
def validHextet (l : List Char) : Bool :=
  if ¬ l.all isHexDigitPy then false
  else if 4 < l.length then false
  else decide (l ≠ [])

/-- IPv6Address._ip_int_from_string as a validity test, mirroring its raise
sites in order: non-empty, at least 3 colon-separated parts, an IPv4-style
last part converted to two (always valid) hextets, at most 9 parts, at most
one empty part strictly inside (the '::'), the leading/trailing-colon rules,
at most 7 other parts beside a '::' (exactly 8 without one), and every
copied hextet valid. -/
def validIPv6Addr (addr : List Char) : Bool :=
  if addr = [] then false
  else
    let parts0 := addr.splitOn ':'
    if parts0.length < 3 then false
    else
      let hasV4 := (parts0.getLastD []).contains '.'
      if hasV4 ∧ validIPv4 (parts0.getLastD []) = false then false
      else
        let parts := if hasV4 then parts0.dropLast ++ [['0'], ['0']] else parts0
        if 9 < parts.length then false
        else
          let middle := (parts.drop 1).dropLast
          let empties := (middle.filter (fun p => p.isEmpty)).length
          if 2 ≤ empties then false
          else if empties = 1 then
            let k := 1 + middle.findIdx (fun p => p.isEmpty)
            let hi0 := k
            let lo0 := parts.length - k - 1
            let headEmpty := (parts.headD [' ']).isEmpty
            let lastEmpty := (parts.getLastD [' ']).isEmpty
            let hi1 := if headEmpty then hi0 - 1 else hi0
            if headEmpty ∧ hi1 ≠ 0 then false
            else
              let lo1 := if lastEmpty then lo0 - 1 else lo0
              if lastEmpty ∧ lo1 ≠ 0 then false
              else if 8 ≤ hi1 + lo1 then false
              else (parts.take hi1).all validHextet &&
                (parts.drop (parts.length - lo1)).all validHextet
          else
            if parts.length ≠ 8 then false
            else if (parts.headD [' ']).isEmpty then false
            else if (parts.getLastD [' ']).isEmpty then false
            else parts.all validHextet

/-- IPv6Address string validity: no '/', then _split_scope_id at the first
'%' (a present scope must be non-empty and '%'-free), then the address
grammar. -/
def validIPv6 (s : List Char) : Bool :=
  if '/' ∈ s then false
  else
    match splitOnFirst '%' s with
    | none => validIPv6Addr s
    | some pr => if pr.2 = [] ∨ '%' ∈ pr.2 then false else validIPv6Addr pr.1

/-- The IPvFuture test of _check_bracketed_host, the regular expression
match of v[a-fA-F0-9]+\..+ against the whole hostname: only the first '.'
can end the hex run, and '.' does not match a newline (none can occur,
urlsplit removes them). -/
def ipvFutureValid (h : List Char) : Bool :=
  match h with
  | 'v' :: rest =>
    match splitOnFirst '.' rest with
    | some pr =>
      decide (pr.1 ≠ []) && pr.1.all isHexDigitPy && decide (pr.2 ≠ []) &&
        decide ('\n' ∉ pr.2)
    | none => false
  | _ => false

/-- urllib.parse._check_bracketed_host.  The last message models the repr
in ip_address's uniform error f-string; it is exact for hostnames free of
quotes and backslashes (netloc characters in practice). -/
def checkBracketedHost (hostname : List Char) : Option String :=
  match hostname with
  | 'v' :: _ =>
    if ipvFutureValid hostname then none else some "IPvFuture address is invalid"
  | _ =>
    if validIPv4 hostname then some "An IPv4 address cannot be in brackets"
    else if validIPv6 hostname then none
    else some ("'" ++ String.mk hostname ++
      "' does not appear to be an IPv4 or IPv6 address")

/-- netloc.partition('[')[2].partition(']')[0]: the text after the first
'[' and before the following ']'. -/
def bracketedHost (netloc : List Char) : List Char :=
  match splitOnFirst '[' netloc with
  | some pr =>
    match splitOnFirst ']' pr.2 with
    | some qr => qr.1
    | none => pr.2
  | none => []

/-- The netloc checks of urlsplit: ValueError('Invalid IPv6 URL') for a
'[' without ']' or vice versa, then _check_bracketed_host when both occur.
_checknetloc returns immediately for ASCII netlocs; its non-ASCII NFKC
branch is not modelled. -/
def netlocChecks (netloc : List Char) : Option String :=
  if ('[' ∈ netloc ∧ ']' ∉ netloc) ∨ (']' ∈ netloc ∧ '[' ∉ netloc) then
    some "Invalid IPv6 URL"
  else if '[' ∈ netloc ∧ ']' ∈ netloc then checkBracketedHost (bracketedHost netloc)
  else none

/-- urlsplit with its error path.  CPython validates the netloc right after
_splitnetloc, before the fragment and query are split off; those later
steps are pure and total, so checking the netloc of the finished split is
observationally identical. -/
def urlsplitE (url dscheme : List Char) : Except String SplitUrl :=
  let s := urlsplitL url dscheme
  match netlocChecks s.netloc with
  | some e => Except.error e
  | none => Except.ok s

/-- urlparse with its error path (the params split cannot raise). -/
def urlparseE (url dscheme : List Char) : Except String ParseUrl :=
  match urlsplitE url dscheme with
  | Except.error e => Except.error e
  | Except.ok _ => Except.ok (urlparseL url dscheme)

/-- The netloc half of urlunsplit: prefix "//" and the netloc when the
netloc is non-empty, or when the scheme uses a netloc and the path does not
already begin with "//". -/
def urlunsplitNetlocPart (scheme netloc path : List Char) : List Char :=
  let startsSlashSlash : Bool := match path with
    | '/' :: '/' :: _ => true
    | _ => false
  if netloc ≠ [] ∨ (scheme ≠ [] ∧ String.mk scheme ∈ uses_netloc ∧ startsSlashSlash = false) then
    let u1 := if path ≠ [] ∧ path.head? ≠ some '/' then '/' :: path else path
    '/' :: '/' :: (netloc ++ u1)
  else path

/-- urllib.parse.urlunsplit. -/
def urlunsplitL (scheme netloc path query fragment : List Char) : List Char :=
  let u := urlunsplitNetlocPart scheme netloc path
  let u := if scheme ≠ [] then scheme ++ ':' :: u else u
  let u := if query ≠ [] then u ++ '?' :: query else u
  if fragment ≠ [] then u ++ '#' :: fragment else u

/-- urllib.parse.urlunparse. -/
def urlunparseL (scheme netloc path params query fragment : List Char) : List Char :=
  urlunsplitL scheme netloc (if params ≠ [] then path ++ ';' :: params else path)
    query fragment

/-- segments[1:-1] = filter(None, segments[1:-1]) from urljoin's merge step:
keep the first and last segments, drop empty strings strictly in between. -/
def filterMiddleSegs (s : List (List Char)) : List (List Char) :=
  match s with
  | [] => []
  | [a] => [a]
  | a :: b :: t =>
    a :: (((b :: t).dropLast).filter (fun x => x ≠ [])) ++ [(b :: t).getLastD []]

/-- The branch structure of urljoin after both URLs are parsed (B the
parsed base, R the parsed reference, url the original reference string),
ported branch by branch. -/
def urljoinParts (B R : ParseUrl) (url : List Char) : List Char :=
  if R.scheme ≠ B.scheme ∨ String.mk R.scheme ∉ uses_relative then url
    else if String.mk R.scheme ∈ uses_netloc ∧ R.netloc ≠ [] then
      urlunparseL R.scheme R.netloc R.path R.params R.query R.fragment
    else
      let netloc := if String.mk R.scheme ∈ uses_netloc then B.netloc else R.netloc
      if R.path = [] ∧ R.params = [] then
        urlunparseL R.scheme netloc B.path B.params
          (if R.query = [] then B.query else R.query) R.fragment
      else
        let bparts0 := B.path.splitOn '/'
        let bparts := if bparts0.getLastD [] ≠ [] then bparts0.dropLast else bparts0
        let segments :=
          if R.path.head? = some '/' then R.path.splitOn '/'
          else filterMiddleSegs (bparts ++ R.path.splitOn '/')
        let resolved := segments.foldl
          (fun acc seg =>
            if seg = ['.', '.'] then acc.dropLast
            else if seg = ['.'] then acc
            else acc ++ [seg])
          ([] : List (List Char))
        let resolved :=
          if segments.getLastD [] = ['.'] ∨ segments.getLastD [] = ['.', '.'] then
            resolved ++ [[]]
          else resolved
        let joined := List.intercalate ['/'] resolved
        urlunparseL R.scheme netloc (if joined = [] then ['/'] else joined)
          R.params R.query R.fragment

/-- urllib.parse.urljoin on character lists, without its error path: the
early returns for an empty base or reference, then the parse of both and
the branch logic.  This is the value urljoin computes whenever it does not
raise; urljoinE adds the raise. -/
def urljoinL (base url : List Char) : List Char :=
  if base = [] then url
  else if url = [] then base
  else
    let B := urlparseL base []
    urljoinParts B (urlparseL url B.scheme) url

/-- urllib.parse.urljoin with its error path: either parse can raise the
netloc ValueError, in base-then-reference order as in the original. -/
def urljoinE (base url : List Char) : Except String (List Char) :=
  if base = [] then Except.ok url
  else if url = [] then Except.ok base
  else
    match urlparseE base [] with
    | Except.error e => Except.error e
    | Except.ok B =>
      match urlparseE url B.scheme with
      | Except.error e => Except.error e
      | Except.ok R => Except.ok (urljoinParts B R url)

/-- requests.compat.urljoin (= urllib.parse.urljoin) on strings, no-raise
projection. -/
def urljoin (base url : String) : String := String.mk (urljoinL base.data url.data)

/-- requests.compat.urljoin on strings with the ValueError path. -/
def urljoinChecked (base url : String) : Except String String :=
  match urljoinE base.data url.data with
  | Except.error e => Except.error e
  | Except.ok l => Except.ok (String.mk l)

/-- Cross-validation of the port: fifteen concrete joins, each checked
against the value CPython 3.11's urllib.parse.urljoin returns. -/
theorem urljoin_matches_cpython :
    urljoin "https://example.com" "/story/1" = "https://example.com/story/1" ∧
    urljoin "https://example.com" "#" = "https://example.com" ∧
    urljoin "https://example.com/a?q=1#f" "#" = "https://example.com/a?q=1" ∧
    urljoin "https://example.com" "" = "https://example.com" ∧
    urljoin "https://example.com/a#f" "" = "https://example.com/a#f" ∧
    urljoin "https://example.com/x/y" "z" = "https://example.com/x/z" ∧
    urljoin "https://example.com/x/y" "../z" = "https://example.com/z" ∧
    urljoin "https://example.com" "https://other.org/p" = "https://other.org/p" ∧
    urljoin "mailto:a@b" "x" = "x" ∧
    urljoin "https://example.com" "javascript:alert(1)" = "javascript:alert(1)" ∧
    urljoin "https://example.com/x" "?q" = "https://example.com/x?q" ∧
    urljoin "https://example.com/x#g" "?q" = "https://example.com/x?q" ∧
    urljoin "https://example.com" "//cdn.com/a" = "https://cdn.com/a" ∧
    urljoin "https://example.com/a/b/" "." = "https://example.com/a/b/" ∧
    urljoin "https://e.com" "https:foo" = "https://e.com/foo" :=
  by decide

/-- Decidable equality for Except values with decidable components (used to
evaluate concrete runs of fetch_news_headlines). -/
instance exceptDecidableEq {ε α : Type} [DecidableEq ε] [DecidableEq α] :
    DecidableEq (Except ε α) := fun a b => by
  cases a with
  | error e =>
    cases b with
    | error f =>
      exact decidable_of_iff (e = f) ⟨fun h => by rw [h], fun h => by injection h⟩
    | ok y => exact Decidable.isFalse (fun h => by injection h)
  | ok x =>
    cases b with
    | error f => exact Decidable.isFalse (fun h => by injection h)
    | ok y =>
      exact decidable_of_iff (x = y) ⟨fun h => by rw [h], fun h => by injection h⟩

/-- Cross-validation of the error path: twenty concrete joins through the
netloc validation, each checked against what CPython 3.11.6's urljoin
returns or raises. -/
theorem urljoin_bracket_validation_matches_cpython :
    urljoinChecked "https://example.com" "//[" = Except.error "Invalid IPv6 URL" ∧
    urljoinChecked "https://example.com" "//]" = Except.error "Invalid IPv6 URL" ∧
    urljoinChecked "https://example.com" "//[]" =
      Except.error "'' does not appear to be an IPv4 or IPv6 address" ∧
    urljoinChecked "https://example.com" "//[::1]/x" = Except.ok "https://[::1]/x" ∧
    urljoinChecked "https://example.com" "//[::1]:8080/x" =
      Except.ok "https://[::1]:8080/x" ∧
    urljoinChecked "https://example.com" "//[1:2:3:4:5:6:7:8]/x" =
      Except.ok "https://[1:2:3:4:5:6:7:8]/x" ∧
    urljoinChecked "https://example.com" "//[1:2:3:4:5:6:7]/x" =
      Except.error "'1:2:3:4:5:6:7' does not appear to be an IPv4 or IPv6 address" ∧
    urljoinChecked "https://example.com" "//[::1::2]/x" =
      Except.error "'::1::2' does not appear to be an IPv4 or IPv6 address" ∧
    urljoinChecked "https://example.com" "//[abcd::efg]/x" =
      Except.error "'abcd::efg' does not appear to be an IPv4 or IPv6 address" ∧
    urljoinChecked "https://example.com" "//[::ffff:1.2.3.4]/x" =
      Except.ok "https://[::ffff:1.2.3.4]/x" ∧
    urljoinChecked "https://example.com" "//[::ffff:01.2.3.4]/x" =
      Except.error "'::ffff:01.2.3.4' does not appear to be an IPv4 or IPv6 address" ∧
    urljoinChecked "https://example.com" "//[1.2.3.4]/x" =
      Except.error "An IPv4 address cannot be in brackets" ∧
    urljoinChecked "https://example.com" "//[v1.fe80::1]/x" =
      Except.ok "https://[v1.fe80::1]/x" ∧
    urljoinChecked "https://example.com" "//[vzz.x]/x" =
      Except.error "IPvFuture address is invalid" ∧
    urljoinChecked "https://example.com" "//[::1%25eth0]/x" =
      Except.ok "https://[::1%25eth0]/x" ∧
    urljoinChecked "https://example.com" "//[::1%25et%25h0]/x" =
      Except.error "'::1%25et%25h0' does not appear to be an IPv4 or IPv6 address" ∧
    urljoinChecked "https://[bad/a" "b" = Except.error "Invalid IPv6 URL" ∧
    urljoinChecked "https://[::1]/a" "b" = Except.ok "https://[::1]/b" ∧
    urljoinChecked "https://example.com" "//[fe80::1%25en0]:80/p" =
      Except.ok "https://[fe80::1%25en0]:80/p" ∧
    urljoinChecked "https://example.com" "/story/1" =
      Except.ok "https://example.com/story/1" :=
  by decide

/- ---------------------------------------------------------------------
BeautifulSoup abstraction and the NewsChain embedding (src/app/main.py).
--------------------------------------------------------------------- -/

/-- A matched element as bs4 exposes it to fetch_news_headlines: its
descendant text nodes in document order and its optional href attribute. -/
structure Tag where
  strings : List String
  href : Option String
deriving DecidableEq

/-- The parsed document: soup.select maps a CSS selector string to the list
of matching elements in document order.  BeautifulSoup's lenient parser and
selector engine are external collaborators; the extraction loop only ever
consumes the output of soup.select. -/
structure Soup where
  select : String → List Tag

/-- tag.get_text(strip=True): each descendant string is stripped, empty
results are skipped, and the rest are concatenated (separator ""). -/
def Tag.getTextStrip (t : Tag) : String :=
  String.mk (List.flatten ((t.strings.map (fun s => pyStrip s.data)).filter
    (fun l => l ≠ [])))

/-- The hardcoded selector list headline_selectors in fetch_news_headlines. -/
def headline_selectors : List String :=
  ["h1 a", "h2 a", "h3 a", ".headline a", ".news-title a", ".entry-title a",
   ".post-title a"]

/-- The body of the inner loop of fetch_news_headlines:
    text = tag.get_text(strip=True)
    link = tag.get('href', '#')
    if text:
        absolute_link = requests.compat.urljoin(url, link)
        headlines_with_links.append((text, absolute_link)) -/
def collect_step (url : String) (acc : List (String × String)) (tag : Tag) :
    List (String × String) :=
  let text := tag.getTextStrip
  let link := (tag.href).getD "#"
  if text ≠ "" then acc ++ [(text, urljoin url link)] else acc

/-- The inner loop of fetch_news_headlines for one selector:
for tag in soup.select(selector): ... -/
def collect_rule (url : String) (acc : List (String × String)) (tags : List Tag) :
    List (String × String) :=
  tags.foldl (collect_step url) acc

/-- The selector loop of fetch_news_headlines over a given rule list,
starting from the empty accumulator headlines_with_links = []. -/
def extract_headlines_with (rules : List String) (url : String) (soup : Soup) :
    List (String × String) :=
  rules.foldl (fun acc sel => collect_rule url acc (soup.select sel)) []

/-- The extraction core of fetch_news_headlines: run every selector of
headline_selectors, in order, over the soup. -/
def extract_headlines (url : String) (soup : Soup) : List (String × String) :=
  extract_headlines_with headline_selectors url soup

/-- The failure kinds observable at the boundary of fetch_news_headlines.
The source raises a bare Exception at two sites (distinct messages and
causes, modelled as distinct constructors); in addition the ValueError
urljoin raises on a malformed bracketed netloc is not caught anywhere in
the function (the try/except wraps only requests.get) and propagates to
the caller. -/
inductive NewsError where
  | FetchError (msg : String)
  | NoHeadlinesFound
  | ValueError (msg : String)
deriving DecidableEq

/-- NewsChain.fetch_news_headlines(url).  The requests.get(url) call and the
BeautifulSoup parse are the environment's contribution, supplied as
fetched : Except String Soup (the exception message on RequestException,
otherwise the parsed response body). -/
def fetch_news_headlines (url : String) (fetched : Except String Soup) :
    Except NewsError (List (String × String)) :=
  match fetched with
  | Except.error e => Except.error (NewsError.FetchError ("Error fetching the news: " ++ e))
  | Except.ok soup =>
    let headlines_with_links := extract_headlines url soup
    if headlines_with_links = [] then Except.error NewsError.NoHeadlinesFound
    else Except.ok headlines_with_links

/-- The qualifying anchors: rule-matched tags whose trimmed text is
non-empty, in rule order then document order. -/
def qualifying_tags (soup : Soup) : List Tag :=
  headline_selectors.flatMap
    (fun sel => (soup.select sel).filter (fun t => t.getTextStrip ≠ ""))

/- ---------------------------------------------------------------------
The exception-tracking extraction: the same loop with urljoin's ValueError
propagated.  A raise inside the loop aborts the whole extraction, exactly
as a Python exception leaves the for loops; extract_headlines above is the
no-raise projection (extract_headlinesE_ok ties the two together).
--------------------------------------------------------------------- -/

/-- The loop body with urljoin's error path: a raise from urljoin aborts
with the ValueError message, and urljoin is only reached when the trimmed
text is non-empty, as in the source. -/
def collect_stepE (url : String) (acc : List (String × String)) (tag : Tag) :
    Except String (List (String × String)) :=
  let text := tag.getTextStrip
  let link := (tag.href).getD "#"
  if text ≠ "" then
    match urljoinChecked url link with
    | Except.error e => Except.error e
    | Except.ok absolute_link => Except.ok (acc ++ [(text, absolute_link)])
  else Except.ok acc

/-- The inner loop with the error propagated: once raised, the remaining
iterations are not executed (the error passes through unchanged). -/
def collect_ruleE (url : String) (eacc : Except String (List (String × String)))
    (tags : List Tag) : Except String (List (String × String)) :=
  tags.foldl
    (fun eacc tag =>
      match eacc with
      | Except.error e => Except.error e
      | Except.ok acc => collect_stepE url acc tag)
    eacc

/-- The selector loop of fetch_news_headlines with urljoin's error path. -/
def extract_headlinesE (url : String) (soup : Soup) :
    Except String (List (String × String)) :=
  headline_selectors.foldl
    (fun eacc sel => collect_ruleE url eacc (soup.select sel)) (Except.ok [])

/-- NewsChain.fetch_news_headlines with every failure it can propagate:
the wrapped RequestException, the urljoin ValueError (uncaught), and the
final no-headlines raise. -/
def fetch_news_headlinesE (url : String) (fetched : Except String Soup) :
    Except NewsError (List (String × String)) :=
  match fetched with
  | Except.error e =>
    Except.error (NewsError.FetchError ("Error fetching the news: " ++ e))
  | Except.ok soup =>
    match extract_headlinesE url soup with
    | Except.error e => Except.error (NewsError.ValueError e)
    | Except.ok headlines_with_links =>
      if headlines_with_links = [] then Except.error NewsError.NoHeadlinesFound
      else Except.ok headlines_with_links

/- ---------------------------------------------------------------------
State-threaded embedding, for the purity claim.  The ambient mutable state
the program carries (module globals such as the API keys and the tweepy
client, the NewsChain instance fields, Streamlit session state) is threaded
explicitly through every statement of fetch_news_headlines; the function
body in main.py neither reads nor writes any of it.
--------------------------------------------------------------------- -/

/-- The ambient mutable state of src/app/main.py visible to NewsChain. -/
structure AppState where
  news_api_key : String
  session_points : Nat
  session_headlines : List (String × String)
deriving DecidableEq

/-- The loop body of fetch_news_headlines with the ambient state threaded
through; the Python statements read and write only locals, so the state
component passes through unchanged. -/
def collect_step_st (url : String) (p : List (String × String) × AppState)
    (tag : Tag) : List (String × String) × AppState :=
  let text := tag.getTextStrip
  let link := (tag.href).getD "#"
  if text ≠ "" then (p.1 ++ [(text, urljoin url link)], p.2) else p

/-- collect_rule with the ambient state threaded through each iteration. -/
def collect_rule_st (url : String) (st : AppState) (acc : List (String × String))
    (tags : List Tag) : List (String × String) × AppState :=
  tags.foldl (collect_step_st url) (acc, st)

/-- The selector loop with the ambient state threaded through. -/
def extract_headlines_st (url : String) (st : AppState) (soup : Soup) :
    List (String × String) × AppState :=
  headline_selectors.foldl (fun p sel => collect_rule_st url p.2 p.1 (soup.select sel))
    ([], st)

/-- fetch_news_headlines with the ambient state threaded through. -/
def fetch_news_headlines_st (url : String) (st : AppState)
    (fetched : Except String Soup) :
    Except NewsError (List (String × String)) × AppState :=
  match fetched with
  | Except.error e =>
    (Except.error (NewsError.FetchError ("Error fetching the news: " ++ e)), st)
  | Except.ok soup =>
    let p := extract_headlines_st url st soup
    if p.1 = [] then (Except.error NewsError.NoHeadlinesFound, p.2)
    else (Except.ok p.1, p.2)

/- ---------------------------------------------------------------------
NewsChain.fetch_live_news (src/app/chains.py):

    while True:
        latest_news = self.fetch_global_trending_news()
        st.write("Latest News Updates:")
        for idx, (headline, link) in enumerate(latest_news, 1):
            st.markdown(...)
        time.sleep(30)

Modelled as a transition system: the state carries the clock and the log of
displayed batches; one step fetches (through an oracle indexed by the
current time, since the news feed is an external input), displays, and
sleeps 30 seconds.  The loop guard is the constant True.
--------------------------------------------------------------------- -/

/-- State of the live-update loop: the clock (seconds) and the displayed
news batches so far. -/
structure LiveState where
  now : Nat
  displayed : List (List (String × String))
deriving DecidableEq

/-- One iteration of the while True body of fetch_live_news. -/
def fetch_live_news_step (latest_news : Nat → List (String × String))
    (s : LiveState) : LiveState :=
  { now := s.now + 30, displayed := s.displayed ++ [latest_news s.now] }

/-- The loop guard of fetch_live_news: while True. -/
def fetch_live_news_cond (_ : LiveState) : Bool := true

/- ---------------------------------------------------------------------
Reference model of strict RFC 3986 relative resolution, for the refinement
comparison: the spec asserts links are resolved with "standard relative-URL
resolution (RFC 3986 semantics)", while the code delegates to urljoin.
--------------------------------------------------------------------- -/

/-- Modelled from the spec: the spec asserts hrefs are resolved against the
base URL "using standard relative-URL resolution (RFC 3986 semantics)"; the
repository contains no resolver of its own (it calls requests.compat.urljoin),
so RFC 3986 sections 5.2 and 5.3 are modelled here directly.  A parsed URI
reference: components other than the path are either absent or present,
possibly empty (RFC 3986 distinguishes the two). -/
structure RfcUri where
  scheme : Option (List Char)
  authority : Option (List Char)
  path : List Char
  query : Option (List Char)
  fragment : Option (List Char)
deriving DecidableEq

/-- Modelled from the spec: scheme detection for RFC 3986 parsing.  A
reference is a URI (rather than a relative reference) when the text before
the first ':' is a valid scheme: non-empty, an ASCII letter first, then
scheme characters.  The scheme is kept verbatim (section 5.3 re-composes
with R.scheme as parsed). -/
def rfcDetectScheme (u : List Char) : Option (List Char × List Char) :=
  match splitOnFirst ':' u with
  | some (p :: pre, rest) =>
    if isAsciiAlpha p && (p :: pre).all isSchemeChar then some (p :: pre, rest)
    else none
  | _ => none

/-- Modelled from the spec: parsing a URI reference into its five components
(RFC 3986 Appendix B): optional scheme, optional authority after "//" up to
the next '/', '?' or '#', then path up to '?' or '#', optional query up to
'#', optional fragment. -/
def rfcParse (s : List Char) : RfcUri :=
  let sr : Option (List Char) × List Char :=
    match rfcDetectScheme s with
    | some (sc, rest) => (some sc, rest)
    | none => (none, s)
  let ar : Option (List Char) × List Char :=
    match sr.2 with
    | '/' :: '/' :: rest =>
      (some (rest.takeWhile (fun c => !(c == '/' || c == '?' || c == '#'))),
       rest.dropWhile (fun c => !(c == '/' || c == '?' || c == '#')))
    | _ => (none, sr.2)
  let path := ar.2.takeWhile (fun c => !(c == '?' || c == '#'))
  let r3 := ar.2.dropWhile (fun c => !(c == '?' || c == '#'))
  let qr : Option (List Char) × List Char :=
    match r3 with
    | '?' :: rest => (some (rest.takeWhile (fun c => !(c == '#'))),
                      rest.dropWhile (fun c => !(c == '#')))
    | _ => (none, r3)
  let fragment : Option (List Char) :=
    match qr.2 with
    | '#' :: rest => some rest
    | _ => none
  ⟨sr.1, ar.1, path, qr.1, fragment⟩

/-- Modelled from the spec: RFC 3986 section 5.2.4 step 2C, removing the
last segment and its preceding '/' (if any) from the output buffer. -/
def rfcPopSegment (out : List Char) : List Char :=
  if out.contains '/' then out.take (rfindIdx '/' out) else []

/-- Modelled from the spec: the remove_dot_segments loop of RFC 3986
section 5.2.4, with an explicit step budget.  Every iteration shortens the
input buffer, so a budget of the input length plus one is never exhausted
and the function computes exactly the RFC algorithm. -/
def rdsAux : Nat → List Char → List Char → List Char
  | 0, input, out => out ++ input
  | fuel + 1, input, out =>
    match input with
    | [] => out
    | '.' :: '.' :: '/' :: rest => rdsAux fuel rest out
    | '.' :: '/' :: rest => rdsAux fuel rest out
    | '/' :: '.' :: '/' :: rest => rdsAux fuel ('/' :: rest) out
    | ['/', '.'] => rdsAux fuel ['/'] out
    | '/' :: '.' :: '.' :: '/' :: rest => rdsAux fuel ('/' :: rest) (rfcPopSegment out)
    | ['/', '.', '.'] => rdsAux fuel ['/'] (rfcPopSegment out)
    | ['.'] => out
    | ['.', '.'] => out
    | '/' :: rest =>
      let seg := rest.takeWhile (fun c => !(c == '/'))
      rdsAux fuel (rest.drop seg.length) (out ++ '/' :: seg)
    | c :: rest =>
      let seg := rest.takeWhile (fun c => !(c == '/'))
      rdsAux fuel (rest.drop seg.length) (out ++ c :: seg)

/-- Modelled from the spec: RFC 3986 section 5.2.4 remove_dot_segments. -/
def removeDotSegments (p : List Char) : List Char := rdsAux (p.length + 1) p []

/-- Modelled from the spec: RFC 3986 section 5.2.3 merge: if the base has an
authority and an empty path, prefix the reference path with '/'; otherwise
replace everything after the right-most '/' of the base path (or the whole
base path when it has no '/'). -/
def rfcMerge (baseAuth : Option (List Char)) (basePath refPath : List Char) :
    List Char :=
  if baseAuth ≠ none ∧ basePath = [] then '/' :: refPath
  else if basePath.contains '/' then
    basePath.take (rfindIdx '/' basePath + 1) ++ refPath
  else refPath

/-- Modelled from the spec: RFC 3986 section 5.2.2 transform references,
strict variant (the variant the RFC specifies for new implementations). -/
def rfcResolveParts (B R : RfcUri) : RfcUri :=
  if R.scheme ≠ none then
    ⟨R.scheme, R.authority, removeDotSegments R.path, R.query, R.fragment⟩
  else if R.authority ≠ none then
    ⟨B.scheme, R.authority, removeDotSegments R.path, R.query, R.fragment⟩
  else if R.path = [] then
    ⟨B.scheme, B.authority, B.path,
     (if R.query ≠ none then R.query else B.query), R.fragment⟩
  else if R.path.head? = some '/' then
    ⟨B.scheme, B.authority, removeDotSegments R.path, R.query, R.fragment⟩
  else
    ⟨B.scheme, B.authority, removeDotSegments (rfcMerge B.authority B.path R.path),
     R.query, R.fragment⟩

/-- Modelled from the spec: RFC 3986 section 5.3 component recomposition:
every defined component is written out, including empty query and fragment
components (a defined empty fragment recomposes as a trailing '#'). -/
def rfcSerialize (u : RfcUri) : List Char :=
  (match u.scheme with | some s => s ++ [':'] | none => []) ++
  (match u.authority with | some a => '/' :: '/' :: a | none => []) ++
  u.path ++
  (match u.query with | some q => '?' :: q | none => []) ++
  (match u.fragment with | some f => '#' :: f | none => [])

/-- Modelled from the spec: strict RFC 3986 relative-URL resolution of a
reference against a base, as the spec's resolution step describes. -/
def rfc_resolve (base r : String) : String :=
  String.mk (rfcSerialize (rfcResolveParts (rfcParse base.data) (rfcParse r.data)))

/-- Validation of the RFC model against the worked examples of RFC 3986
section 5.4 (a selection, on the standard base), plus the fragment-only
reference the deviation claim needs. -/
theorem rfc_resolve_matches_rfc3986 :
    rfc_resolve "https://example.com" "#" = "https://example.com#" ∧
    rfc_resolve "https://example.com" "/story/1" = "https://example.com/story/1" ∧
    rfc_resolve "http://a/b/c/d;p?q" "../../g" = "http://a/g" ∧
    rfc_resolve "http://a/b/c/d;p?q" "g;x=1/./y" = "http://a/b/c/g;x=1/y" ∧
    rfc_resolve "http://a/b/c/d;p?q" "" = "http://a/b/c/d;p?q" ∧
    rfc_resolve "http://a/b/c/d;p?q" "?y" = "http://a/b/c/d;p?y" ∧
    rfc_resolve "http://a/b/c/d;p?q" "../.." = "http://a/" :=
  by decide

/- ---------------------------------------------------------------------
Concrete documents for the scenarios and counterexamples.
--------------------------------------------------------------------- -/

/-- Scenario A from the spec: an h1 anchor with href "/story/1" and text
"Breaking News"; no other selector matches. -/
def scenarioASoup : Soup :=
  ⟨fun sel => if sel = "h1 a" then [⟨["Breaking News"], some "/story/1"⟩] else []⟩

/-- Scenario B from the spec: an "h1 a" match and a ".headline a" match with
the same text "X" but different hrefs. -/
def dupTextSoup : Soup :=
  ⟨fun sel =>
    if sel = "h1 a" then [⟨["X"], some "/a"⟩]
    else if sel = ".headline a" then [⟨["X"], some "/b"⟩]
    else []⟩

/-- Scenario D from the spec: a matched anchor with text but no href. -/
def noHrefSoup : Soup :=
  ⟨fun sel => if sel = "h1 a" then [⟨["Morning Brief"], none⟩] else []⟩

/-- A matched anchor whose href attribute is present and equal to "#". -/
def hashHrefSoup : Soup :=
  ⟨fun sel => if sel = "h1 a" then [⟨["Evening Brief"], some "#"⟩] else []⟩

/-- A matched anchor whose href attribute is present but empty. -/
def emptyHrefSoup : Soup :=
  ⟨fun sel => if sel = "h1 a" then [⟨["Night Brief"], some ""⟩] else []⟩

/-- A matched anchor with non-empty text whose href has a mismatched
bracket: resolving it makes urljoin raise ValueError('Invalid IPv6 URL')
on real CPython, aborting the extraction. -/
def badBracketSoup : Soup :=
  ⟨fun sel => if sel = "h1 a" then [⟨["T"], some "//["⟩] else []⟩

/- ---------------------------------------------------------------------
Characterisation of the extraction loop.
--------------------------------------------------------------------- -/

/-- The pair the loop appends for one qualifying tag. -/
def entryOf (url : String) (t : Tag) : String × String :=
  (t.getTextStrip, urljoin url ((t.href).getD "#"))

theorem collect_rule_eq (url : String) (tags : List Tag) :
    ∀ acc, collect_rule url acc tags =
      acc ++ (tags.filter (fun t => t.getTextStrip ≠ "")).map (entryOf url) := by
  induction tags with
  | nil => intro acc; simp [collect_rule]
  | cons t ts ih =>
    intro acc
    have h1 : collect_rule url acc (t :: ts) =
        collect_rule url (collect_step url acc t) ts := rfl
    rw [h1, ih]
    by_cases h : t.getTextStrip = ""
    · simp [collect_step, entryOf, h, List.filter_cons]
    · simp [collect_step, entryOf, h, List.filter_cons]

theorem extract_foldl_eq (url : String) (soup : Soup) (rules : List String) :
    ∀ acc, rules.foldl (fun acc sel => collect_rule url acc (soup.select sel)) acc =
      acc ++ rules.flatMap (fun sel =>
        ((soup.select sel).filter (fun t => t.getTextStrip ≠ "")).map (entryOf url)) := by
  induction rules with
  | nil => intro acc; simp
  | cons r rs ih =>
    intro acc
    rw [List.foldl_cons, ih, collect_rule_eq, List.flatMap_cons, List.append_assoc]

theorem extract_headlines_with_eq (rules : List String) (url : String) (soup : Soup) :
    extract_headlines_with rules url soup =
      rules.flatMap (fun sel =>
        ((soup.select sel).filter (fun t => t.getTextStrip ≠ "")).map (entryOf url)) := by
  unfold extract_headlines_with
  rw [extract_foldl_eq]
  simp

theorem extract_headlines_eq (url : String) (soup : Soup) :
    extract_headlines url soup = (qualifying_tags soup).map (entryOf url) := by
  unfold extract_headlines qualifying_tags
  rw [extract_headlines_with_eq, List.map_flatMap]

theorem mem_qualifying_tags {soup : Soup} {sel : String} {t : Tag}
    (hsel : sel ∈ headline_selectors) (ht : t ∈ soup.select sel)
    (htext : t.getTextStrip ≠ "") : t ∈ qualifying_tags soup := by
  unfold qualifying_tags
  exact List.mem_flatMap.mpr ⟨sel, hsel, List.mem_filter.mpr ⟨ht, by simpa using htext⟩⟩

theorem entry_mem_extract (url : String) {soup : Soup} {sel : String} {t : Tag}
    (hsel : sel ∈ headline_selectors) (ht : t ∈ soup.select sel)
    (htext : t.getTextStrip ≠ "") : entryOf url t ∈ extract_headlines url soup := by
  rw [extract_headlines_eq]
  exact List.mem_map_of_mem (entryOf url) (mem_qualifying_tags hsel ht htext)

/- ---------------------------------------------------------------------
State threading: fetch_news_headlines neither reads nor writes the ambient
state, so the threaded version projects to the pure one.
--------------------------------------------------------------------- -/

theorem collect_step_st_eq (url : String) (acc : List (String × String))
    (st : AppState) (t : Tag) :
    collect_step_st url (acc, st) t = (collect_step url acc t, st) := by
  unfold collect_step_st collect_step
  by_cases h : t.getTextStrip = "" <;> simp [h]

theorem collect_rule_st_eq (url : String) (tags : List Tag) :
    ∀ acc st, collect_rule_st url st acc tags = (collect_rule url acc tags, st) := by
  induction tags with
  | nil => intro acc st; rfl
  | cons t ts ih =>
    intro acc st
    have h1 : collect_rule_st url st acc (t :: ts) =
        List.foldl (collect_step_st url) (collect_step_st url (acc, st) t) ts := rfl
    rw [h1, collect_step_st_eq]
    exact ih (collect_step url acc t) st

theorem extract_foldl_st_eq (url : String) (soup : Soup) (rules : List String) :
    ∀ acc st,
      rules.foldl (fun p sel => collect_rule_st url p.2 p.1 (soup.select sel)) (acc, st) =
      (rules.foldl (fun acc sel => collect_rule url acc (soup.select sel)) acc, st) := by
  induction rules with
  | nil => intro acc st; rfl
  | cons r rs ih =>
    intro acc st
    rw [List.foldl_cons, List.foldl_cons]
    have h2 : collect_rule_st url (acc, st).2 (acc, st).1 (soup.select r) =
        (collect_rule url acc (soup.select r), st) :=
      collect_rule_st_eq url (soup.select r) acc st
    rw [h2]
    exact ih (collect_rule url acc (soup.select r)) st

theorem extract_headlines_st_eq (url : String) (st : AppState) (soup : Soup) :
    extract_headlines_st url st soup = (extract_headlines url soup, st) := by
  unfold extract_headlines_st extract_headlines extract_headlines_with
  exact extract_foldl_st_eq url soup headline_selectors [] st

/- ---------------------------------------------------------------------
The exception-tracking extraction against the no-raise projection.
--------------------------------------------------------------------- -/

theorem dropWhile_head_false {α : Type} {p : α → Bool} {l : List α} {c : α}
    {t : List α} (h : l.dropWhile p = c :: t) : p c = false := by
  induction l with
  | nil => simp [List.dropWhile] at h
  | cons a l ih =>
    rw [List.dropWhile_cons] at h
    by_cases hp : p a = true
    · rw [if_pos hp] at h
      exact ih h
    · rw [if_neg hp] at h
      injection h with h1 h2
      subst h1
      simpa using hp

theorem dropWhile_length_le {α : Type} (p : α → Bool) (l : List α) :
    (l.dropWhile p).length ≤ l.length :=
  (List.dropWhile_suffix p).length_le

theorem head_false_of_dropWhile_self {α : Type} {p : α → Bool} {c : α}
    {t : List α} (h : (c :: t).dropWhile p = c :: t) : p c = false := by
  rw [List.dropWhile_cons] at h
  by_cases hp : p c = true
  · rw [if_pos hp] at h
    have := dropWhile_length_le p t
    rw [h] at this
    simp at this
  · simpa using hp

theorem dropWhile_append_self {α : Type} {p : α → Bool} {a : List α}
    (x : List α) (h : a.dropWhile p = a) (ha : a ≠ []) :
    (a ++ x).dropWhile p = a ++ x := by
  cases a with
  | nil => exact absurd rfl ha
  | cons c t =>
    have hc : p c = false := head_false_of_dropWhile_self h
    rw [List.cons_append, List.dropWhile_cons, hc]
    simp

theorem dropWhile_idem {α : Type} (p : α → Bool) (l : List α) :
    (l.dropWhile p).dropWhile p = l.dropWhile p := by
  cases hd : l.dropWhile p with
  | nil => rfl
  | cons c t =>
    rw [List.dropWhile_cons, dropWhile_head_false hd]
    simp

theorem pyStrip_fix_left {l : List Char} (h : pyStrip l = l) : pyStripL l = l := by
  have hsuf : pyStripL l <:+ l := List.dropWhile_suffix isPyWs
  have h1 : (pyStrip l).length ≤ (pyStripL l).length := by
    unfold pyStrip pyStripR
    rw [List.length_reverse]
    calc (List.dropWhile isPyWs (pyStripL l).reverse).length
        ≤ (pyStripL l).reverse.length := dropWhile_length_le _ _
      _ = (pyStripL l).length := List.length_reverse _
  have h2 : (pyStripL l).length ≤ l.length := dropWhile_length_le _ _
  rw [h] at h1
  exact hsuf.eq_of_length (Nat.le_antisymm h2 h1)

theorem pyStrip_fix_right {l : List Char} (h : pyStrip l = l) : pyStripR l = l := by
  have hl := pyStrip_fix_left h
  unfold pyStrip at h
  rw [hl] at h
  exact h

theorem pyStripR_rev {l : List Char} (h : pyStripR l = l) :
    l.reverse.dropWhile isPyWs = l.reverse := by
  unfold pyStripR at h
  calc l.reverse.dropWhile isPyWs
      = ((l.reverse.dropWhile isPyWs).reverse).reverse := by rw [List.reverse_reverse]
    _ = l.reverse := by rw [h]

theorem pyStrip_append {a b : List Char} (ha : pyStrip a = a) (hb : pyStrip b = b)
    (na : a ≠ []) (nb : b ≠ []) : pyStrip (a ++ b) = a ++ b := by
  have hL : pyStripL (a ++ b) = a ++ b :=
    dropWhile_append_self b (pyStrip_fix_left ha) na
  have hR : pyStripR (a ++ b) = a ++ b := by
    unfold pyStripR
    rw [List.reverse_append]
    rw [dropWhile_append_self a.reverse (pyStripR_rev (pyStrip_fix_right hb))
      (by simpa using nb)]
    rw [← List.reverse_append, List.reverse_reverse]
  unfold pyStrip
  rw [hL, hR]

theorem pyStripR_front (m : List Char) : pyStripR m <+: m := by
  obtain ⟨u, hu⟩ := @List.dropWhile_suffix Char m.reverse isPyWs
  refine ⟨u.reverse, ?_⟩
  unfold pyStripR
  calc (m.reverse.dropWhile isPyWs).reverse ++ u.reverse
      = (u ++ m.reverse.dropWhile isPyWs).reverse := by rw [List.reverse_append]
    _ = m.reverse.reverse := by rw [hu]
    _ = m := List.reverse_reverse m

theorem pyStripL_pyStripR_fix {m : List Char} (hm : pyStripL m = m) :
    pyStripL (pyStripR m) = pyStripR m := by
  cases hrm : pyStripR m with
  | nil => rfl
  | cons c t =>
    have hpre : (c :: t) <+: m := hrm ▸ pyStripR_front m
    obtain ⟨r, hr⟩ := hpre
    have hm2 : m = c :: (t ++ r) := by rw [← hr]; simp
    have hc : isPyWs c = false :=
      head_false_of_dropWhile_self
        (calc (c :: (t ++ r)).dropWhile isPyWs = m.dropWhile isPyWs := by rw [← hm2]
          _ = m := hm
          _ = c :: (t ++ r) := hm2)
    unfold pyStripL
    rw [List.dropWhile_cons, hc]
    simp

theorem pyStripR_idem (l : List Char) : pyStripR (pyStripR l) = pyStripR l := by
  unfold pyStripR
  rw [List.reverse_reverse, dropWhile_idem]

theorem pyStrip_idem (l : List Char) : pyStrip (pyStrip l) = pyStrip l := by
  have h1 : pyStripL (pyStrip l) = pyStrip l :=
    pyStripL_pyStripR_fix (dropWhile_idem isPyWs l)
  show pyStripR (pyStripL (pyStrip l)) = pyStrip l
  rw [h1]
  exact pyStripR_idem (pyStripL l)

theorem pyStrip_flatten (parts : List (List Char))
    (h : ∀ x ∈ parts, pyStrip x = x ∧ x ≠ []) :
    pyStrip parts.flatten = parts.flatten := by
  induction parts with
  | nil => rfl
  | cons a ps ih =>
    have ha := h a (List.mem_cons_self a ps)
    have hps := ih (fun x hx => h x (List.mem_cons_of_mem a hx))
    rw [List.flatten_cons]
    by_cases hf : ps.flatten = []
    · rw [hf, List.append_nil]
      exact ha.1
    · exact pyStrip_append ha.1 hps ha.2 hf

theorem getTextStrip_trimmed (t : Tag) : pyStripStr t.getTextStrip = t.getTextStrip := by
  unfold Tag.getTextStrip pyStripStr
  have h : pyStrip (List.flatten ((t.strings.map (fun s => pyStrip s.data)).filter
      (fun l => l ≠ []))) =
      List.flatten ((t.strings.map (fun s => pyStrip s.data)).filter
      (fun l => l ≠ [])) := by
    apply pyStrip_flatten
    intro x hx
    have hx' := List.mem_filter.mp hx
    obtain ⟨s, _, hs⟩ := List.mem_map.mp hx'.1
    constructor
    · rw [← hs]
      exact pyStrip_idem s.data
    · simpa using hx'.2
  exact congrArg String.mk h

/- ---------------------------------------------------------------------
urljoin facts: joining onto an https base always yields a URL with a
scheme, and joining the empty reference returns the base verbatim.
--------------------------------------------------------------------- -/

/-- The scheme urlsplit extracts from a URL string (default ''). -/
def schemeOfUrl (s : String) : List Char := (urlsplitL s.data []).scheme

/-- A string is a syntactically absolute URI when urlsplit finds a scheme. -/
def IsAbsoluteUri (s : String) : Prop := schemeOfUrl s ≠ []

instance (s : String) : Decidable (IsAbsoluteUri s) := by
  unfold IsAbsoluteUri
  infer_instance

theorem urlparseL_scheme (u d : List Char) :
    (urlparseL u d).scheme = (urlsplitL u d).scheme := by
  unfold urlparseL
  dsimp only
  split
  · rfl
  · rfl

theorem splitRest_scheme (s u : List Char) : (splitRest s u).scheme = s := rfl

theorem urlsplitL_scheme_of_detect {u : List Char} (d : List Char)
    {s rest : List Char} (h : detectScheme (cleanUrl u) = some (s, rest)) :
    (urlsplitL u d).scheme = s := by
  unfold urlsplitL
  rw [h]
  rfl

theorem urlsplitL_scheme_of_none {u : List Char} (d : List Char)
    (h : detectScheme (cleanUrl u) = none) :
    (urlsplitL u d).scheme = cleanScheme d := by
  unfold urlsplitL
  rw [h]
  rfl

theorem detectScheme_ne_nil {u s rest : List Char}
    (h : detectScheme u = some (s, rest)) : s ≠ [] := by
  unfold detectScheme at h
  rcases hsp : splitOnFirst ':' u with _ | ⟨pre, r⟩
  · rw [hsp] at h
    simp at h
  · rw [hsp] at h
    cases pre with
    | nil => simp at h
    | cons p ps =>
      by_cases hc : (isAsciiAlpha p && (p :: ps).all isSchemeChar) = true
      · simp only [hc, if_true] at h
        obtain ⟨h1, h2⟩ := by simpa using h
        rw [← h1]
        simp
      · simp only [hc, if_false] at h
        simp at h

theorem cleanScheme_mem {S : List Char} (h2 : String.mk S ∈ uses_relative) :
    cleanScheme S = S := by
  simp only [uses_relative, List.mem_cons, List.not_mem_nil, or_false] at h2
  rcases h2 with h | h | h | h | h | h | h | h | h | h | h | h | h | h | h | h | h | h | h | h
  all_goals rw [show S = _ from congrArg String.data h]
  all_goals rfl

theorem urlunsplitL_scheme_shape (S netloc path query fragment : List Char)
    (hS : S ≠ []) :
    ∃ w, urlunsplitL S netloc path query fragment = S ++ ':' :: w := by
  unfold urlunsplitL
  generalize urlunsplitNetlocPart S netloc path = u1
  dsimp only
  rw [if_pos hS]
  by_cases hf : fragment = []
  · rw [if_neg (by simp [hf])]
    by_cases hq : query = []
    · rw [if_neg (by simp [hq])]
      exact ⟨u1, rfl⟩
    · rw [if_pos hq]
      exact ⟨u1 ++ '?' :: query, by simp⟩
  · rw [if_pos hf]
    by_cases hq : query = []
    · rw [if_neg (by simp [hq])]
      exact ⟨u1 ++ '#' :: fragment, by simp⟩
    · rw [if_pos hq]
      exact ⟨u1 ++ '?' :: query ++ '#' :: fragment, by simp⟩

theorem schemeOfUrl_unparse_eq (S : List Char)
    (hdet : ∀ w : List Char, schemeOfUrl (String.mk (S ++ ':' :: w)) = S)
    (hS : S ≠ []) (netloc path params query fragment : List Char) :
    schemeOfUrl (String.mk (urlunparseL S netloc path params query fragment)) = S := by
  unfold urlunparseL
  obtain ⟨w, hw⟩ := urlunsplitL_scheme_shape S netloc
    (if params ≠ [] then path ++ ';' :: params else path) query fragment hS
  rw [hw]
  exact hdet w

theorem schemeOfUrl_unparse_mem {S : List Char} (h1 : S ≠ [])
    (h2 : String.mk S ∈ uses_relative) (netloc path params query fragment : List Char) :
    schemeOfUrl (String.mk (urlunparseL S netloc path params query fragment)) = S := by
  simp only [uses_relative, List.mem_cons, List.not_mem_nil, or_false] at h2
  rcases h2 with h | h | h | h | h | h | h | h | h | h | h | h | h | h | h | h | h | h | h | h
  · exact absurd (congrArg String.data h) h1
  all_goals rw [show S = _ from congrArg String.data h]
  all_goals exact schemeOfUrl_unparse_eq _ (fun _ => rfl) (by decide) netloc path params query fragment

theorem urljoin_absolute (base r : String) (h1 : schemeOfUrl base ≠ [])
    (h2 : String.mk (schemeOfUrl base) ∈ uses_relative) :
    IsAbsoluteUri (urljoin base r) := by
  have hBs : (urlparseL base.data []).scheme = schemeOfUrl base :=
    urlparseL_scheme base.data []
  have hbase_ne : base.data ≠ [] := by
    intro h0
    unfold schemeOfUrl at h1
    rw [h0] at h1
    exact h1 (by decide)
  unfold urljoin urljoinL
  rw [if_neg hbase_ne]
  by_cases hr0 : r.data = []
  · rw [if_pos hr0]
    show (urlsplitL base.data []).scheme ≠ []
    exact h1
  · rw [if_neg hr0]
    dsimp only
    unfold urljoinParts
    dsimp only
    rw [hBs]
    by_cases hsch : (urlparseL r.data (schemeOfUrl base)).scheme = schemeOfUrl base
    · have hcond : ¬((urlparseL r.data (schemeOfUrl base)).scheme ≠ schemeOfUrl base ∨
          String.mk (urlparseL r.data (schemeOfUrl base)).scheme ∉ uses_relative) := by
        intro hor
        rcases hor with hne | hnm
        · exact hne hsch
        · rw [hsch] at hnm
          exact hnm h2
      rw [if_neg hcond]
      split
      · rw [hsch]
        unfold IsAbsoluteUri
        rw [schemeOfUrl_unparse_mem h1 h2]
        exact h1
      · split
        · rw [hsch]
          unfold IsAbsoluteUri
          rw [schemeOfUrl_unparse_mem h1 h2]
          exact h1
        · rw [hsch]
          unfold IsAbsoluteUri
          rw [schemeOfUrl_unparse_mem h1 h2]
          exact h1
    · rw [if_pos (Or.inl hsch)]
      have hps : (urlparseL r.data (schemeOfUrl base)).scheme =
          (urlsplitL r.data (schemeOfUrl base)).scheme := urlparseL_scheme _ _
      cases hdet : detectScheme (cleanUrl r.data) with
      | none =>
        have hn : (urlsplitL r.data (schemeOfUrl base)).scheme =
            cleanScheme (schemeOfUrl base) := urlsplitL_scheme_of_none _ hdet
        rw [cleanScheme_mem h2] at hn
        exact absurd (hps.trans hn) hsch
      | some pr =>
        obtain ⟨s, rest⟩ := pr
        have hds : (urlsplitL r.data []).scheme = s :=
          urlsplitL_scheme_of_detect [] hdet
        show (urlsplitL r.data []).scheme ≠ []
        rw [hds]
        exact detectScheme_ne_nil hdet


theorem urljoin_empty_ref (u : String) : urljoin u "" = u := by
  cases u with
  | mk d =>
    unfold urljoin urljoinL
    by_cases h : d = []
    · subst h
      rfl
    · have hd : (String.mk d).data = d := rfl
      rw [hd, if_neg h, if_pos (show ("".data : List Char) = [] from rfl)]

/- ---------------------------------------------------------------------
Claim theorems.
--------------------------------------------------------------------- -/

/-- C1: counterexample.  The claim asserts result texts are pairwise
distinct because a duplicate-text entry is not appended.  The loop in
fetch_news_headlines appends unconditionally: for Scenario B's document
(same text "X" under two rules with different hrefs), both entries are
kept, the text "X" occurs twice, and the second entry keeps its own link
rather than the first-seen one. -/
theorem extract_headlines_duplicate_texts :
    extract_headlines "https://example.com" dupTextSoup =
      [("X", "https://example.com/a"), ("X", "https://example.com/b")] ∧
    ((extract_headlines "https://example.com" dupTextSoup).map Prod.fst).count "X" = 2 :=
  by decide

/-- C1: amended claim.  The extractor performs no deduplication: every
rule-matched anchor with non-empty trimmed text is appended, so the result
texts are exactly the texts of the qualifying matches, in order and with
duplicates retained (each duplicate keeping its own link). -/
theorem extract_headlines_texts_eq_qualifying (url : String) (soup : Soup) :
    (extract_headlines url soup).map Prod.fst =
      (qualifying_tags soup).map Tag.getTextStrip := by
  rw [extract_headlines_eq, List.map_map]
  rfl

/-- C2: counterexample.  For a matched anchor with non-empty text and no
href attribute (Scenario D), the resulting link is not the sentinel '#':
the code substitutes '#' and then resolves it through urljoin, which
returns the base URL with the empty fragment dropped. -/
theorem extract_headlines_missing_href_not_sentinel :
    extract_headlines "https://example.com" noHrefSoup =
      [("Morning Brief", "https://example.com")] ∧
    ("https://example.com" : String) ≠ "#" :=
  by decide

/-- C2: amended claim.  When the href attribute is absent the code
substitutes the sentinel '#' but still performs relative-URL resolution on
it: the entry's link is urljoin(baseUrl, "#") (the base URL with any
fragment removed and the '#' dropped), not the literal sentinel. -/
theorem extract_headlines_missing_href_resolves_sentinel
    (url : String) (soup : Soup) (sel : String) (t : Tag)
    (hsel : sel ∈ headline_selectors) (ht : t ∈ soup.select sel)
    (hhref : t.href = none) (htext : t.getTextStrip ≠ "") :
    (t.getTextStrip, urljoin url "#") ∈ extract_headlines url soup := by
  have h := entry_mem_extract url hsel ht htext
  unfold entryOf at h
  rw [hhref] at h
  exact h

/-- C2: witness for the amended claim at Scenario D's document. -/
theorem extract_headlines_missing_href_resolves_sentinel_witness :
    ("Morning Brief", "https://example.com") ∈
      extract_headlines "https://example.com" noHrefSoup := by
  have h := extract_headlines_missing_href_resolves_sentinel "https://example.com"
    noHrefSoup "h1 a" ⟨["Morning Brief"], none⟩ (by decide) (by decide) rfl (by decide)
  have e1 : Tag.getTextStrip ⟨["Morning Brief"], none⟩ = "Morning Brief" := by decide
  have e2 : urljoin "https://example.com" "#" = "https://example.com" := by decide
  rw [e1, e2] at h
  exact h

/-- C3: counterexample.  NoHeadlinesFound is not the only failure kind,
and not even the only failure kind given successfully fetched content.
fetch_news_headlines performs the network fetch itself and raises a wrapped
fetch error when the request fails; and with fetched content in hand, a
matched anchor whose href makes urljoin raise — here href '//[', on which
CPython's urlsplit raises ValueError('Invalid IPv6 URL') — aborts the
extraction with a third, content-dependent failure kind.  Both extra kinds
are distinct from NoHeadlinesFound. -/
theorem fetch_news_headlines_not_single_failure :
    fetch_news_headlinesE "https://www.yourwebsite.com/"
        (Except.error "connection refused") =
      Except.error (NewsError.FetchError "Error fetching the news: connection refused") ∧
    fetch_news_headlinesE "https://example.com" (Except.ok badBracketSoup) =
      Except.error (NewsError.ValueError "Invalid IPv6 URL") ∧
    NewsError.FetchError "Error fetching the news: connection refused" ≠
      NewsError.NoHeadlinesFound ∧
    NewsError.ValueError "Invalid IPv6 URL" ≠ NewsError.NoHeadlinesFound :=
  by decide

/-- C3: amended claim.  Given fetched content, the outcome is a pure
function of that content, but it has two failure kinds, not one: the
extraction either returns the extracted list, raises NoHeadlinesFound, or
propagates the ValueError that urljoin raises on an unparseable href.  The
enclosing fetch_news_headlines additionally performs network I/O and has a
third, fetch-related failure kind. -/
theorem fetch_news_headlines_content_failure_kinds (url : String) (soup : Soup) :
    (∃ res, fetch_news_headlinesE url (Except.ok soup) = Except.ok res) ∨
    fetch_news_headlinesE url (Except.ok soup) =
      Except.error NewsError.NoHeadlinesFound ∨
    (∃ msg, fetch_news_headlinesE url (Except.ok soup) =
      Except.error (NewsError.ValueError msg)) := by
  have hstep : fetch_news_headlinesE url (Except.ok soup) =
      match extract_headlinesE url soup with
      | Except.error e => Except.error (NewsError.ValueError e)
      | Except.ok headlines_with_links =>
        if headlines_with_links = [] then Except.error NewsError.NoHeadlinesFound
        else Except.ok headlines_with_links := rfl
  rw [hstep]
  cases hE : extract_headlinesE url soup with
  | error e =>
    right; right
    exact ⟨e, rfl⟩
  | ok res =>
    dsimp only
    by_cases h : res = []
    · right; left
      rw [if_pos h]
    · left
      exact ⟨res, by rw [if_neg h]⟩

/-- C5: counterexample.  The claim says a present href is resolved by
standard RFC 3986 resolution into an absolute URL.  Two refutations: for
href '#', strict RFC 3986 resolution keeps the (empty) fragment and yields
'https://example.com#', but the code's resolver (urljoin) drops it, giving
'https://example.com'; and for a base whose scheme is not in urllib's
uses_relative list (e.g. mailto:), urljoin returns the reference unchanged,
so the produced link ('x') is not even an absolute URL. -/
theorem urljoin_deviates_from_rfc3986 :
    extract_headlines "https://example.com" hashHrefSoup =
      [("Evening Brief", "https://example.com")] ∧
    rfc_resolve "https://example.com" "#" = "https://example.com#" ∧
    ("https://example.com" : String) ≠ "https://example.com#" ∧
    urljoin "mailto:a@b" "x" = "x" ∧
    schemeOfUrl "x" = [] :=
  by decide

/-- C5: amended claim.  Every entry whose source anchor had an href h has
link urljoin(baseUrl, h) — urllib's resolver, which follows RFC 3986 except
for deviations such as dropping empty fragments (and raises ValueError on
bracketed-host errors, modelled in urljoinE); whenever the base URL has a
scheme and that scheme is in urllib's uses_relative list (which holds for
every http and https base, among others), every produced link is
syntactically absolute; and Scenario A holds exactly as stated. -/
theorem extract_headlines_link_resolution (url : String) (soup : Soup) :
    (∀ sel ∈ headline_selectors, ∀ t ∈ soup.select sel, ∀ h : String,
      t.href = some h → t.getTextStrip ≠ "" →
      (t.getTextStrip, urljoin url h) ∈ extract_headlines url soup) ∧
    (schemeOfUrl url ≠ [] → String.mk (schemeOfUrl url) ∈ uses_relative →
      ∀ p ∈ extract_headlines url soup, IsAbsoluteUri p.2) ∧
    extract_headlines "https://example.com" scenarioASoup =
      [("Breaking News", "https://example.com/story/1")] := by
  refine ⟨?_, ?_, by decide⟩
  · intro sel hsel t ht h hhref htext
    have hm := entry_mem_extract url hsel ht htext
    unfold entryOf at hm
    rw [hhref] at hm
    exact hm
  · intro h1 h2 p hp
    rw [extract_headlines_eq] at hp
    obtain ⟨t, _, ht⟩ := List.mem_map.mp hp
    rw [← ht]
    exact urljoin_absolute url _ h1 h2

/-- C5: witness for the amended claim at Scenario A with an https base. -/
theorem extract_headlines_link_resolution_witness :
    ("Breaking News", "https://example.com/story/1") ∈
      extract_headlines "https://example.com" scenarioASoup ∧
    IsAbsoluteUri "https://example.com/story/1" := by
  have h := extract_headlines_link_resolution "https://example.com" scenarioASoup
  constructor
  · have h2 := h.1 "h1 a" (by decide) ⟨["Breaking News"], some "/story/1"⟩
      (by decide) "/story/1" rfl (by decide)
    have e1 : Tag.getTextStrip ⟨["Breaking News"], some "/story/1"⟩ = "Breaking News" := by
      decide
    have e2 : urljoin "https://example.com" "/story/1" =
        "https://example.com/story/1" := by decide
    rw [e1, e2] at h2
    exact h2
  · exact h.2.1 (by decide) (by decide) ("Breaking News", "https://example.com/story/1")
      (by decide)

/-- C6: the extractor runs every rule, in the given order, and concatenates
the per-rule results: the output equals the flat concatenation, over the
rule list in order, of each rule's matches (in document order) filtered to
non-empty text and mapped to their entries.  First-match-wins is not the
semantics, and insertion order is rule order then document order. -/
theorem extract_headlines_union_order (rules : List String) (url : String)
    (soup : Soup) :
    extract_headlines_with rules url soup =
      rules.flatMap (fun sel =>
        ((soup.select sel).filter (fun t => t.getTextStrip ≠ "")).map (entryOf url)) ∧
    extract_headlines url soup =
      headline_selectors.flatMap (fun sel =>
        ((soup.select sel).filter (fun t => t.getTextStrip ≠ "")).map (entryOf url)) :=
  ⟨extract_headlines_with_eq rules url soup,
   extract_headlines_with_eq headline_selectors url soup⟩

/-- C7: matched elements whose text is empty after trimming (including
whitespace-only text) produce no entry, so every text field in a result is
non-empty and is its own trim (whitespace-trimmed). -/
theorem extract_headlines_text_nonempty_trimmed (url : String) (soup : Soup)
    (p : String × String) (hp : p ∈ extract_headlines url soup) :
    p.1 ≠ "" ∧ pyStripStr p.1 = p.1 := by
  rw [extract_headlines_eq] at hp
  obtain ⟨t, htq, ht⟩ := List.mem_map.mp hp
  have htext : t.getTextStrip ≠ "" := by
    unfold qualifying_tags at htq
    obtain ⟨sel, _, hmem⟩ := List.mem_flatMap.mp htq
    have hf := (List.mem_filter.mp hmem).2
    simpa using hf
  constructor
  · rw [← ht]
    exact htext
  · rw [← ht]
    exact getTextStrip_trimmed t

/-- C7: witness at Scenario A. -/
theorem extract_headlines_text_nonempty_trimmed_witness :
    ("Breaking News" : String) ≠ "" ∧ pyStripStr "Breaking News" = "Breaking News" :=
  extract_headlines_text_nonempty_trimmed "https://example.com" scenarioASoup
    ("Breaking News", "https://example.com/story/1") (by decide)

/-- C8: the extractor is pure and deterministic: with the ambient mutable
state of the program threaded explicitly through every statement, the
result does not depend on the state, the state is returned unchanged, and
two invocations with identical inputs produce identical output (equal to
the state-free function of the inputs). -/
theorem fetch_news_headlines_pure_deterministic (url : String)
    (fetched : Except String Soup) (s₁ s₂ : AppState) :
    (fetch_news_headlines_st url s₁ fetched).1 = fetch_news_headlines url fetched ∧
    (fetch_news_headlines_st url s₁ fetched).2 = s₁ ∧
    (fetch_news_headlines_st url s₁ fetched).1 =
      (fetch_news_headlines_st url s₂ fetched).1 := by
  have key : ∀ s : AppState, fetch_news_headlines_st url s fetched =
      (fetch_news_headlines url fetched, s) := by
    intro s
    cases fetched with
    | error e => rfl
    | ok soup =>
      unfold fetch_news_headlines_st fetch_news_headlines
      dsimp only
      rw [extract_headlines_st_eq]
      dsimp only
      by_cases h : extract_headlines url soup = []
      · rw [if_pos h, if_pos h]
      · rw [if_neg h, if_neg h]
  rw [key s₁, key s₂]
  exact ⟨rfl, rfl, rfl⟩

/-- C9: the live-update loop never terminates: its guard (while True) is
still true after every number of iterations, and each iteration fetches
and displays one more batch and advances the clock by the fixed 30-second
sleep; no state ever makes the guard false, so the core offers the caller
no cancellation mechanism. -/
theorem fetch_live_news_never_terminates
    (latest_news : Nat → List (String × String)) (s : LiveState) (n : Nat) :
    fetch_live_news_cond (Nat.iterate (fetch_live_news_step latest_news) n s) = true ∧
    (Nat.iterate (fetch_live_news_step latest_news) n s).now = s.now + 30 * n ∧
    (Nat.iterate (fetch_live_news_step latest_news) n s).displayed.length =
      s.displayed.length + n := by
  refine ⟨rfl, ?_⟩
  induction n with
  | zero => simp
  | succ n ih =>
    rw [Function.iterate_succ_apply']
    refine ⟨?_, ?_⟩
    · show (Nat.iterate (fetch_live_news_step latest_news) n s).now + 30 =
        s.now + 30 * (n + 1)
      rw [ih.1]
      ring
    · show ((Nat.iterate (fetch_live_news_step latest_news) n s).displayed ++
        [latest_news (Nat.iterate (fetch_live_news_step latest_news) n s).now]).length =
        s.displayed.length + (n + 1)
      rw [List.length_append, ih.2]
      simp [Nat.add_assoc]

/-- C10: a present-but-empty href attribute is not treated like a missing
one: tag.get('href', '#') returns the empty string, and urljoin returns the
base unchanged for an empty reference, so the entry's link equals the base
URL itself, not the sentinel '#'. -/
theorem extract_headlines_empty_href_is_base (url : String) (soup : Soup)
    (sel : String) (t : Tag) (hsel : sel ∈ headline_selectors)
    (ht : t ∈ soup.select sel) (hhref : t.href = some "")
    (htext : t.getTextStrip ≠ "") :
    (t.getTextStrip, url) ∈ extract_headlines url soup := by
  have hm := entry_mem_extract url hsel ht htext
  unfold entryOf at hm
  rw [hhref, Option.getD_some, urljoin_empty_ref] at hm
  exact hm

/-- C10: witness at a document whose anchor has an empty href. -/
theorem extract_headlines_empty_href_is_base_witness :
    ("Night Brief", "https://example.com") ∈
      extract_headlines "https://example.com" emptyHrefSoup := by
  have h := extract_headlines_empty_href_is_base "https://example.com" emptyHrefSoup
    "h1 a" ⟨["Night Brief"], some ""⟩ (by decide) (by decide) rfl (by decide)
  have e1 : Tag.getTextStrip ⟨["Night Brief"], some ""⟩ = "Night Brief" := by decide
  rw [e1] at h
  exact h

end App

